import Mathlib

/-
Verification of the core of the job-search-automation backend against its
specification.

Shallow embedding of:
  * backend/app/core/queue_manager.py   (SequentialQueueManager / AITask)
  * backend/app/core/websocket_manager.py (WebSocketManager)
  * backend/app/services/automation/application_automator.py
      (GenericAutomator.apply, AutomationManager.run_application)

Conventions: Python strings are Lean String; Python substring tests
(the `in` operator) are the function pyIn below; truthiness of a string is
the test against the empty string; effectful playwright / database calls
are fields of explicit environment records, and each embedded function
threads the abstract page/browser state and returns a trace of the
externally visible actions it performed.
-/

namespace JobSearch

/-! ## Python string primitives -/

/-- Whether the first character list is a leading segment of the second. -/
def listStartsWith : List Char → List Char → Bool
  | [], _ => true
  | _ :: _, [] => false
  | a :: as, b :: bs => a == b && listStartsWith as bs

/-- Whether the first character list occurs contiguously inside the second. -/
def listHasSub (n : List Char) : List Char → Bool
  | [] => listStartsWith n []
  | b :: bs => listStartsWith n (b :: bs) || listHasSub n bs

/-- Python `needle in hay` on strings (contiguous substring test). -/
def pyIn (needle hay : String) : Bool :=
  listHasSub needle.toList hay.toList

/-- ASCII lowercase of one character; all strings lowercased by the
embedded code are ASCII, where Python `str.lower` acts exactly like this. -/
def lowerChar (c : Char) : Char :=
  if 65 ≤ c.toNat && c.toNat ≤ 90 then Char.ofNat (c.toNat + 32) else c

/-- Python `s.lower()` on the ASCII strings the source lowercases. -/
def pyLower (s : String) : String := ⟨s.data.map lowerChar⟩

/-- Python `s.replace("_", " ")`: with a one-character pattern this is the
character map replacing every underscore by a space. -/
def underscoreToSpace (s : String) : String :=
  ⟨s.data.map (fun c => if c == '_' then ' ' else c)⟩

/-! ## Sequential queue manager (backend/app/core/queue_manager.py)

`AITask.status` ranges over the four literals used by the source. -/

inductive TStatus where
  | queued
  | processing
  | completed
  | failed
deriving DecidableEq, Repr

/-- Terminal statuses of a task (lines 93 and 98 of queue_manager.py). -/
def TStatus.isTerminal : TStatus → Bool
  | .completed => true
  | .failed => true
  | _ => false

/-- The outcome of `task.func(*task.args, **task.kwargs)`: a normal return
carrying a value or a raised exception carrying `str(e)`. -/
abbrev Outcome (V : Type) := Except String V

/-- Status stored by the worker after running the function: `completed` on a
normal return (line 93), `failed` on an exception (line 98). -/
def runOutcome {V : Type} : Outcome V → TStatus
  | .ok _ => .completed
  | .error _ => .failed

/-- The fields of an `AITask` that the worker loop mutates: `status`,
`started_at` and `finished_at` (modelled as recorded / not recorded),
`result` and `error`. -/
structure TaskRec (V : Type) where
  status : TStatus
  startedAt : Bool
  finishedAt : Bool
  result : Option V
  error : Option String
deriving DecidableEq, Repr

/-- Broadcasts emitted by the worker for one task: `task_started` with the
snapshot status, and `task_finished` with the snapshot status, the stored
error, and the payload `task.result if task.status == "completed" else None`
(line 106). -/
inductive QEvent (V : Type) where
  | taskStarted (status : TStatus)
  | taskFinished (status : TStatus) (error : Option String) (payload : Option V)
deriving DecidableEq, Repr

/-- One iteration of `_worker_loop` applied to a dequeued task
(queue_manager.py lines 75-107): set status `processing`, record the start
time, broadcast `task_started`, run the function inside try/except, store
result or error, record the finish time, broadcast `task_finished`. -/
def runTask {V : Type} (outcome : Outcome V) : TaskRec V × List (QEvent V) :=
  let rec0 : TaskRec V :=
    { status := .processing, startedAt := true, finishedAt := false
      result := none, error := none }
  let ev1 := QEvent.taskStarted rec0.status
  let rec1 : TaskRec V :=
    match outcome with
    | .ok v => { rec0 with status := .completed, result := some v }
    | .error e => { rec0 with status := .failed, error := some e }
  let rec2 := { rec1 with finishedAt := true }
  let ev2 := QEvent.taskFinished rec2.status rec2.error
    (if rec2.status = .completed then rec2.result else none)
  (rec2, [ev1, ev2])

/-- Snapshots of the status vector of all submitted tasks, in submission
order, taken after every status mutation the worker performs.  The worker
consumes the FIFO queue one task at a time; `add_task` only appends tasks
whose status is `queued`, so the submitted sequence is modelled as a list of
outcomes fixed up front.  Each loop iteration contributes the snapshot after
`task.status = "processing"` (line 76) and the snapshot after the terminal
status is stored (line 93 or 98). -/
def workerTraceAux {V : Type} : List (Outcome V) → Nat → List TStatus →
    List (List TStatus)
  | [], _, _ => []
  | o :: rest, i, sts =>
    let s1 := sts.set i .processing
    let s2 := s1.set i (runOutcome o)
    s1 :: s2 :: workerTraceAux rest (i + 1) s2

/-- Full status-vector trace of a run of the worker over the submitted
tasks: the initial all-`queued` snapshot followed by the per-iteration
snapshots. -/
def workerTrace {V : Type} (outcomes : List (Outcome V)) :
    List (List TStatus) :=
  let s0 := List.replicate outcomes.length TStatus.queued
  s0 :: workerTraceAux outcomes 0 s0

/-- Status vector after the worker has drained the queue. -/
def finalStatuses {V : Type} (outcomes : List (Outcome V)) : List TStatus :=
  (workerTrace outcomes).getLastD []

/-- Number of tasks with status `processing` in a snapshot. -/
def procCount : List TStatus → Nat
  | [] => 0
  | .processing :: t => procCount t + 1
  | _ :: t => procCount t

/-- Status vector after the worker has run every remaining task, starting
from snapshot `sts` with queue head index `i` (the terminal snapshot of
`workerTraceAux`). -/
def endState {V : Type} : List (Outcome V) → Nat → List TStatus → List TStatus
  | [], _, sts => sts
  | o :: rest, i, sts =>
    endState rest (i + 1) ((sts.set i .processing).set i (runOutcome o))

/-! ## WebSocket manager (backend/app/core/websocket_manager.py)

Connections are identified by opaque numeric ids; `deliverOk c` tells
whether `connection.send_json(message)` on connection `c` succeeds for the
event being broadcast. -/

structure WSState where
  active : List Nat
deriving DecidableEq, Repr

/-- `WebSocketManager.disconnect` (lines 19-22): remove the connection from
`active_connections` if it is present. -/
def wsDisconnect (st : WSState) (c : Nat) : WSState :=
  if c ∈ st.active then ⟨st.active.erase c⟩ else st

/-- `WebSocketManager.broadcast` (lines 24-54): return immediately when
there are no connections; otherwise attempt delivery to every current
connection in order, collect the connections whose delivery raised in
`dead_connections`, and after the delivery loop disconnect each of them.
The returned list pairs every connection attempted with the outcome of its
delivery. -/
def wsBroadcast (deliverOk : Nat → Bool) (st : WSState) :
    WSState × List (Nat × Bool) :=
  if st.active.isEmpty then (st, [])
  else
    let attempts := st.active.map (fun c => (c, deliverOk c))
    let dead := st.active.filter (fun c => !(deliverOk c))
    (dead.foldl wsDisconnect st, attempts)

/-! ## Application automation engine
(backend/app/services/automation/application_automator.py)

The playwright page is an abstract state `S`; the environment record below
gives the responses of each playwright primitive the source calls.
`hasSel` is `page.query_selector(sel)` returning a truthy element handle,
`visible` is `page.is_visible(sel, timeout=2000)` (a timeout reads as
"not visible"), `elVisible`/`elValue` are `element.is_visible()` /
`element.input_value()` on the handle found by `query_selector`, and the
action fields return the page state after the corresponding interaction.
`applyClick` models the click on an apply affordance performed inside
`context.expect_page()`: its first component is the new tab when one
opened (the source then switches `self.page` to it after
`wait_for_load_state`, which is modelled as succeeding), and its second
component is the original page after the click when no tab opened — in
that case `expect_page.__aexit__` raises a timeout that the enclosing
`except Exception: continue` (line 95) turns into trying the next
selector.  All calls are modelled as total; the bare `except` blocks that
swallow per-selector faults in the source are therefore never triggered in
the model, except where noted for the unawaited `page.content()` call. -/

structure Env (S : Type) where
  url : S → String
  hasSel : S → String → Bool
  visible : S → String → Bool
  elVisible : S → String → Bool
  elValue : S → String → String
  goto : S → String → S
  applyClick : S → String → Option S × S
  click : S → String → S
  fill : S → String → String → S
  setFiles : S → String → String → S
  fileExists : String → Bool

/-- The fields of the `Job` dataclass (backend/app/db/models.py) that
`apply` and `run_application` read; the remaining dataclass fields are
never consulted by the embedded code. Dataclass defaults make every field a
plain string, `""` when unset. -/
structure Job where
  title : String := ""
  company : String := ""
  url : String := ""
  source : String := ""
  resume_path : String := ""
deriving DecidableEq, Repr

/-- The fields of the `UserProfile` dataclass that the field-filling
heuristics read. -/
structure UserProfile where
  full_name : String := ""
  email : String := ""
  phone : String := ""
  location : String := ""
  linkedin_url : String := ""
  github_url : String := ""
  portfolio_url : String := ""
  resume_path : String := ""
deriving DecidableEq, Repr

/-- Externally visible page actions performed by `GenericAutomator.apply`. -/
inductive PAct where
  | pgoto (url : String)
  | clickApply (sel : String)
  | upload (sel path : String)
  | fillField (sel value : String)
  | clickNext (sel : String)
deriving DecidableEq, Repr

/-- The return statement of `apply` that produced the boolean result.  The
source returns a bare `bool`; this tag records the provenance of that
boolean, i.e. which of the six `return` sites fired.  The specification
names the failure sites `LoginWallDetected` (lines 50 and 119, plus the
login-redirect return at line 107) and `NoActionsPerformed` (line 213). -/
inductive ExitSite where
  | loginWallNavigate
  | loginRedirect
  | loginWallStep
  | submittedSuccess
  | potentialSuccess
  | noActions
deriving DecidableEq, Repr

/-- The boolean actually returned by `apply` at each return site. -/
def ExitSite.toBool : ExitSite → Bool
  | .submittedSuccess => true
  | .potentialSuccess => true
  | _ => false

/-- Result of one run of `apply`: the tagged return, the final value of
`actions_performed`, the number of iterations of the `for step in range(5)`
loop that were entered, and the page actions performed. -/
structure ApplyOutcome where
  exit : ExitSite
  actions : Nat
  iterations : Nat
  trace : List PAct
deriving DecidableEq, Repr

/-- The `apply_selectors` list (lines 53-65). -/
def applySelectors : List String :=
  ["button:has-text(\x27Apply\x27)",
   "button:has-text(\x27Quick Apply\x27)",
   "button:has-text(\x27Easy Apply\x27)",
   "button:has-text(\x27Apply now\x27)",
   "a:has-text(\x27Apply now\x27)",
   "a:has-text(\x27Apply on company site\x27)",
   "button:has-text(\x27Apply to this job\x27)",
   "#indeedApplyButton",
   ".apply-button",
   "[data-testid=\x27apply-button\x27]",
   ".jobs-apply-button--top-card"]

/-- The `next_selectors` list (lines 171-181). -/
def nextSelectors : List String :=
  ["button:has-text(\x27Continue\x27)",
   "button:has-text(\x27Next\x27)",
   "button:has-text(\x27Save and continue\x27)",
   "button:has-text(\x27Review\x27)",
   "button:has-text(\x27Submit\x27)",
   "button:has-text(\x27Apply\x27)",
   "button[type=\x27submit\x27]",
   ".ia-continue-button",
   "button[aria-label=\x27Continue to next step\x27]"]

/-- The combined resume file-input selector (line 122). -/
def resumeSel : String :=
  "input[type=\x27file\x27][name*=\x27resume\x27], " ++
  "input[type=\x27file\x27][id*=\x27resume\x27], " ++
  "input[type=\x27file\x27][accept*=\x27pdf\x27]"

/-- The success-marker query issued after an advance click (line 193). -/
def successMarkerSel : String :=
  "text=success, text=thank you, text=received"

/-- Login-wall check right after navigation (lines 46-48). -/
def wallNavigate {S : Type} (env : Env S) (s : S) : Bool :=
  env.hasSel s "text=Sign in to apply" || env.hasSel s "text=Join to apply" ||
    env.hasSel s ".modal__login-header"

/-- Login-wall check at the top of every form step (lines 115-117). -/
def wallStep {S : Type} (env : Env S) (s : S) : Bool :=
  env.hasSel s "text=Sign in" || env.hasSel s "text=Join now" ||
    env.hasSel s "text=Welcome back"

/-- The apply-affordance scan (lines 67-97): try each selector in order;
when one is visible, click it inside `expect_page`.  If a new tab opened,
switch the working page to it and stop scanning (`button_found = True`,
line 89-90).  If none opened, the `expect_page` exit raises and the outer
`except` moves on to the next selector, leaving `button_found` false but
keeping any page-state effect of the click. -/
def applyButtonLoop {S : Type} (env : Env S) :
    S → List String → Bool × S × List PAct
  | s, [] => (false, s, [])
  | s, sel :: rest =>
    if env.visible s sel then
      match env.applyClick s sel with
      | (some newPg, _) => (true, newPg, [PAct.clickApply sel])
      | (none, sAfter) =>
        let r := applyButtonLoop env sAfter rest
        (r.1, r.2.1, PAct.clickApply sel :: r.2.2)
    else applyButtonLoop env s rest

/-- Resume-upload block of a form step (lines 121-133): when the page has a
matching file input, upload the job resume if its path is non-empty and
exists on disk, falling back to the profile resume under the same test;
each upload counts one performed action. -/
def resumePhase {S : Type} (env : Env S) (job : Job)
    (profile : Option UserProfile) (s : S) : S × Nat × List PAct :=
  if env.hasSel s resumeSel then
    if job.resume_path ≠ "" && env.fileExists job.resume_path then
      (env.setFiles s resumeSel job.resume_path, 1,
        [PAct.upload resumeSel job.resume_path])
    else
      match profile with
      | some p =>
        if p.resume_path ≠ "" && env.fileExists p.resume_path then
          (env.setFiles s resumeSel p.resume_path, 1,
            [PAct.upload resumeSel p.resume_path])
        else (s, 0, [])
      | none => (s, 0, [])
  else (s, 0, [])

/-- Python `full_name.split()`: split on whitespace runs, dropping empty
pieces (only the space character is relevant to the embedded values). -/
def pySplit (s : String) : List String :=
  (s.splitOn " ").filter (fun t => t ≠ "")

/-- `full_name.split()[0] if " " in full_name else full_name` (line 138).
When the name contains a space the source indexes the split result; the
model returns `""` for the degenerate all-space name on which the source
would raise an IndexError (no embedded claim touches that input). -/
def firstNameOf (full : String) : String :=
  if pyIn " " full then (pySplit full).headD "" else full

/-- `full_name.split()[-1] if " " in full_name else ""` (line 139). -/
def lastNameOf (full : String) : String :=
  if pyIn " " full then (pySplit full).getLastD "" else ""

/-- The `fields` dict of line 137-147 in insertion order. -/
def profileFields (p : UserProfile) : List (String × String) :=
  [("first_name", firstNameOf p.full_name),
   ("last_name", lastNameOf p.full_name),
   ("full_name", p.full_name),
   ("email", p.email),
   ("phone", p.phone),
   ("location", p.location),
   ("linkedin", p.linkedin_url),
   ("github", p.github_url),
   ("portfolio", p.portfolio_url)]

/-- The three heuristic selectors tried for a field (lines 153-157). -/
def fieldSelectors (fieldName : String) : List String :=
  ["input[name*=\x27" ++ fieldName ++ "\x27]",
   "input[id*=\x27" ++ fieldName ++ "\x27]",
   "input[placeholder*=\x27" ++ underscoreToSpace fieldName ++ "\x27]"]

/-- Inner selector loop for one field (lines 159-168): fill the first
selector whose element exists, is visible and currently empty, then stop;
selectors that find nothing are skipped. -/
def fillFieldLoop {S : Type} (env : Env S) (s : S) (value : String) :
    List String → Option (S × String)
  | [] => none
  | sel :: rest =>
    if env.hasSel s sel && env.elVisible s sel && env.elValue s sel == "" then
      some (env.fill s sel value, sel)
    else fillFieldLoop env s value rest

/-- Field loop over the `fields` dict (lines 149-168): skip falsy values;
count one action per successful fill. -/
def fillFields {S : Type} (env : Env S) :
    S → List (String × String) → S × Nat × List PAct
  | s, [] => (s, 0, [])
  | s, (n, v) :: rest =>
    if v = "" then fillFields env s rest
    else
      match fillFieldLoop env s v (fieldSelectors n) with
      | some (s', sel) =>
        let r := fillFields env s' rest
        (r.1, r.2.1 + 1, PAct.fillField sel v :: r.2.2)
      | none => fillFields env s rest

/-- The `if self.profile:` guard around field filling (line 136). -/
def fieldsPhase {S : Type} (env : Env S) (profile : Option UserProfile)
    (s : S) : S × Nat × List PAct :=
  match profile with
  | none => (s, 0, [])
  | some p => fillFields env s (profileFields p)

/-- Result of the advance-control scan of one form step. -/
inductive AdvOut (S : Type) where
  | submitted (sel : String) (acts : Nat) (tr : List PAct)
  | done (advanced : Bool) (s : S) (acts : Nat) (tr : List PAct)
deriving DecidableEq, Repr

/-- Prepend one performed click to an advance-scan result. -/
def AdvOut.push {S : Type} (a : PAct) : AdvOut S → AdvOut S
  | .submitted sel k tr => .submitted sel (k + 1) (a :: tr)
  | .done adv s k tr => .done adv s (k + 1) (a :: tr)

/-- The advance-control scan (lines 183-200).  For each selector in order:
if visible, record the current URL, click (one action), and test
`url changed or success-marker query matched` (line 193).  When that test
holds, `step_advanced` is set and line 195 runs: if the selector text
contains "submit" or "apply" the function returns True (line 197);
otherwise the third disjunct evaluates `self.page.content().lower()` —
`page.content()` is a coroutine that the source forgets to await, so the
`.lower()` attribute access raises and the bare `except` on line 199
continues with the next selector (the `break` on line 198 is unreachable:
the condition on line 195 either returns or raises).  When the test fails
the loop also just moves to the next selector. -/
def advanceLoop {S : Type} (env : Env S) :
    Bool → S → List String → AdvOut S
  | adv, s, [] => .done adv s 0 []
  | adv, s, sel :: rest =>
    if env.visible s sel then
      let cur := env.url s
      let s' := env.click s sel
      if env.url s' ≠ cur || env.hasSel s' successMarkerSel then
        if pyIn "submit" (pyLower sel) || pyIn "apply" (pyLower sel) then
          .submitted sel 1 [PAct.clickNext sel]
        else AdvOut.push (PAct.clickNext sel) (advanceLoop env true s' rest)
      else AdvOut.push (PAct.clickNext sel) (advanceLoop env adv s' rest)
    else advanceLoop env adv s rest

/-- Result of the `for step in range(5)` loop. -/
inductive LoopRes (S : Type) where
  | wall (iters acts : Nat) (tr : List PAct)
  | submitted (iters acts : Nat) (tr : List PAct)
  | ended (s : S) (iters acts : Nat) (tr : List PAct)
deriving DecidableEq, Repr

/-- Fold the bookkeeping of one completed iteration into the result of the
remaining iterations. -/
def LoopRes.accum {S : Type} (a0 : Nat) (t0 : List PAct) :
    LoopRes S → LoopRes S
  | .wall i a t => .wall (i + 1) (a0 + a) (t0 ++ t)
  | .submitted i a t => .submitted (i + 1) (a0 + a) (t0 ++ t)
  | .ended s i a t => .ended s (i + 1) (a0 + a) (t0 ++ t)

/-- The form-step loop (lines 113-204), fuelled by the remaining range
count.  Each entered iteration: login-wall check returning False when a
barrier appears (lines 115-119), resume upload, field filling, then the
advance-control scan; `return True` inside the scan ends the run, a scan
with `step_advanced` false breaks out of the loop (lines 202-204), and an
advanced step continues with the next iteration. -/
def stepLoop {S : Type} (env : Env S) (job : Job)
    (profile : Option UserProfile) : Nat → S → LoopRes S
  | 0, s => .ended s 0 0 []
  | fuel + 1, s =>
    if wallStep env s then .wall 1 0 []
    else
      let r1 := resumePhase env job profile s
      let r2 := fieldsPhase env profile r1.1
      let acts := r1.2.1 + r2.2.1
      let tr := r1.2.2 ++ r2.2.2
      match advanceLoop env false r2.1 nextSelectors with
      | .submitted _ a3 t3 => .submitted 1 (acts + a3) (tr ++ t3)
      | .done true s3 a3 t3 =>
        LoopRes.accum (acts + a3) (tr ++ t3)
          (stepLoop env job profile fuel s3)
      | .done false s3 a3 t3 => .ended s3 1 (acts + a3) (tr ++ t3)

/-- `GenericAutomator.apply` (lines 39-213): navigate to the job URL, abort
on a login wall, scan for an apply affordance, abort when redirected to a
login URL, run up to five form steps, and classify the run: explicit
submission success inside a step, else potential success when at least one
action was performed, else failure with no actions. -/
def applyRun {S : Type} (env : Env S) (s0 : S) (job : Job)
    (profile : Option UserProfile) : ApplyOutcome :=
  let s1 := env.goto s0 job.url
  let trNav := [PAct.pgoto job.url]
  if wallNavigate env s1 then
    { exit := .loginWallNavigate, actions := 0, iterations := 0
      trace := trNav }
  else
    let rA := applyButtonLoop env s1 applySelectors
    let s2 := rA.2.1
    let trA := trNav ++ rA.2.2
    if pyIn "login" (env.url s2) || pyIn "signin" (env.url s2) then
      { exit := .loginRedirect, actions := 0, iterations := 0, trace := trA }
    else
      match stepLoop env job profile 5 s2 with
      | .wall i a t =>
        { exit := .loginWallStep, actions := a, iterations := i
          trace := trA ++ t }
      | .submitted i a t =>
        { exit := .submittedSuccess, actions := a, iterations := i
          trace := trA ++ t }
      | .ended _ i a t =>
        if a > 0 then
          { exit := .potentialSuccess, actions := a, iterations := i
            trace := trA ++ t }
        else
          { exit := .noActions, actions := a, iterations := i
            trace := trA ++ t }

/-! ## Automation manager (lines 215-290)

`run_application` is embedded over an environment with abstract browser
(`B`), context (`C`) and page (`S`) types.  Fallible calls return
`Except String _`, the error carrying Python `str(e)`; an `Except.error`
result of the whole function is an exception propagating out of
`run_application`. -/

/-- The dict `{"status": ..., "message": ...}` returned by
`run_application`. -/
structure ResultDict where
  status : String
  message : String
deriving DecidableEq, Repr

/-- Externally visible effects of one `run_application` call.
`playwrightStop` is the teardown of the `async with async_playwright()`
block: stopping the driver terminates every browser it launched, closing
their contexts and freeing a held profile lock. -/
inductive MAct where
  | launchPersistent (dir : String)
  | launchBrowser
  | contextAuth
  | contextFresh
  | pageNew
  | pageAct (a : PAct)
  | updateStatus (id : Nat) (st : String)
  | closeContext
  | playwrightStop
deriving DecidableEq, Repr

/-- Events that close the acquired browser context: the explicit
`context.close()` of the `finally` at line 290, and the driver stop of the
`async_playwright` teardown, which closes all launched browser contexts. -/
def closesContext : MAct → Bool
  | .closeContext => true
  | .playwrightStop => true
  | _ => false

structure MEnv (S B C : Type) where
  page : Env S
  getJob : Nat → Option Job
  getProfile : Nat → Option UserProfile
  /-- The attribute read `config.BROWSER_PROFILE_PATH` (line 243).  The
  module `backend/app/core/config.py` does not define
  `BROWSER_PROFILE_PATH` (and nothing assigns it dynamically), so in the
  shipped repository this access raises
  `AttributeError: module ... has no attribute ...`, modelled as the
  `.error` case; `.ok` models the configuration knob the surrounding code
  and the specification assume, with `none` / the empty string falsy. -/
  browserProfilePath : Except String (Option String)
  /-- Whether `DATA_DIR / "auth_state.json"` exists (line 254). -/
  authStateExists : Bool
  launchPersistentContext : String → Except String C
  chromiumLaunch : Except String B
  newContextAuth : B → Except String C
  newContextFresh : B → Except String C
  newPage : C → Except String S

/-- Python `str(e).lower()` message test selecting the profile-lock branch
(line 266). -/
def isLockError (e : String) : Bool :=
  pyIn "profile is in use" (pyLower e) || pyIn "lock file" (pyLower e)

/-- The user-facing profile-lock message (lines 267-270). -/
def lockMessage : String :=
  "Your browser profile is currently in use. Please close all Chrome " ++
  "windows or use a separate profile for automation."

/-- The message of the `AttributeError` raised by the shipped code at
line 243, as produced by `str(e)` on a module attribute miss. -/
def attrErrMsg : String :=
  "module \x27backend.app.core.config\x27 has no attribute " ++
  "\x27BROWSER_PROFILE_PATH\x27"

/-- The context-acquisition block inside the `try` of lines 242-264:
persistent context when the profile path is configured and truthy, else an
anonymous browser whose context imports the cached auth state when the
snapshot file exists.  The trace records each browser-level attempt. -/
def acquireContext {S B C : Type} (m : MEnv S B C) :
    Except String C × List MAct :=
  match m.browserProfilePath with
  | .error e => (.error e, [])
  | .ok bp =>
    let dirOpt : Option String :=
      match bp with
      | some d => if d = "" then none else some d
      | none => none
    match dirOpt with
    | some dir => (m.launchPersistentContext dir, [MAct.launchPersistent dir])
    | none =>
      if m.authStateExists then
        match m.chromiumLaunch with
        | .error e => (.error e, [MAct.launchBrowser])
        | .ok b => (m.newContextAuth b, [MAct.launchBrowser, MAct.contextAuth])
      else
        match m.chromiumLaunch with
        | .error e => (.error e, [MAct.launchBrowser])
        | .ok b =>
          (m.newContextFresh b, [MAct.launchBrowser, MAct.contextFresh])

/-- The resume precondition of lines 228-229. -/
def hasResumeAvailable {S B C : Type} (m : MEnv S B C) (job : Job) : Bool :=
  (job.resume_path ≠ "" && m.page.fileExists job.resume_path) ||
    (match m.getProfile 1 with
     | some p => p.resume_path ≠ "" && m.page.fileExists p.resume_path
     | none => false)

/-- The body of `AutomationManager.run_application` (lines 221-290):
resolve the job and the default profile, require a resume on disk, acquire
a browser context (an acquisition exception whose message marks a locked
profile is converted to the distinct lock result, any other one is
re-raised), open a page — `page = await context.new_page()` at line 273
sits outside the `try/finally` of lines 279-290, so an exception there
propagates without the explicit `context.close()`, and release on that
path happens through the `async_playwright` teardown instead — run the
automator, persist `status = "applied"` on success, and close the context
in the `finally` on the paths that reached the `try`.  The trace here
holds the effects of the block body; `runApplicationFull` below adds the
teardown effect of leaving the `async with` block. -/
def runApplication {S B C : Type} (m : MEnv S B C) (jobId : Nat) :
    Except String ResultDict × List MAct :=
  match m.getJob jobId with
  | none => (.ok ⟨"error", "Job not found"⟩, [])
  | some job =>
    let profile := m.getProfile 1
    if !hasResumeAvailable m job then
      (.ok ⟨"error",
        "No resume found (neither job-specific nor profile default)."⟩, [])
    else
      match acquireContext m with
      | (.error e, tr) =>
        if isLockError e then (.ok ⟨"error", lockMessage⟩, tr)
        else (.error e, tr)
      | (.ok ctx, tr) =>
        match m.newPage ctx with
        | .error e => (.error e, tr ++ [MAct.pageNew])
        | .ok pg =>
          let r := applyRun m.page pg job profile
          let trP := tr ++ [MAct.pageNew] ++ r.trace.map MAct.pageAct
          if r.exit.toBool then
            (.ok ⟨"success", "Successfully applied for " ++ job.title⟩,
              trP ++ [MAct.updateStatus jobId "applied", MAct.closeContext])
          else
            (.ok ⟨"error", "Application flow failed or was incomplete."⟩,
              trP ++ [MAct.closeContext])

/-- Whether the call enters the `async with async_playwright() as p:` block
of line 234: the job id resolved and a resume is available (the two early
returns of lines 221-232 happen before the block). -/
def enteredPlaywright {S B C : Type} (m : MEnv S B C) (jobId : Nat) : Bool :=
  match m.getJob jobId with
  | none => false
  | some job => hasResumeAvailable m job

/-- `run_application` including the effect of leaving the
`async with async_playwright()` block.  The `__aexit__` of that block runs
on every exit from it — normal return and exception unwinding alike — and
stops the playwright driver, which terminates every browser process it
launched, closing their contexts and freeing a held profile lock.  Because
the block wraps the whole body, this teardown is the last effect of every
run that entered the block; runs rejected by the early job/resume checks
never enter it. -/
def runApplicationFull {S B C : Type} (m : MEnv S B C) (jobId : Nat) :
    Except String ResultDict × List MAct :=
  let r := runApplication m jobId
  if enteredPlaywright m jobId then (r.1, r.2 ++ [MAct.playwrightStop])
  else r

/-! ## Statement helpers

Abbreviations for intermediate states of `applyRun`, used to phrase
hypotheses of theorems about individual stages of the pipeline. -/

/-- The working page at the start of the form-step loop: the page after
navigation and the apply-affordance scan. -/
def stepStartState {S : Type} (env : Env S) (s0 : S) (job : Job) : S :=
  (applyButtonLoop env (env.goto s0 job.url) applySelectors).2.1

/-- The page of a form step after its resume-upload and field-filling
blocks, i.e. the page the advance-control scan starts from. -/
def stepMidState {S : Type} (env : Env S) (job : Job)
    (profile : Option UserProfile) (s : S) : S :=
  (fieldsPhase env profile (resumePhase env job profile s).1).1

/-! ## Concrete evaluation worlds

Small executable environments used to witness the theorems and to exhibit
counterexamples; each is a deterministic page world with the indicated
responses. -/

/-- A job record pointing at a plain posting URL. -/
def cJob : Job :=
  { title := "Backend Engineer", company := "Acme", url := "https://example.com/job"
    source := "generic", resume_path := "/data/resume.pdf" }

/-- A page world in which nothing matches: no login wall, no apply button,
no inputs, no advance controls. -/
def inertEnv : Env Unit where
  url := fun _ => "https://example.com/job"
  hasSel := fun _ _ => false
  visible := fun _ _ => false
  elVisible := fun _ _ => false
  elValue := fun _ _ => ""
  goto := fun s _ => s
  applyClick := fun s _ => (none, s)
  click := fun s _ => s
  fill := fun s _ _ => s
  setFiles := fun s _ _ => s
  fileExists := fun _ => false

/-- The inert world with a "Sign in to apply" marker in the page body. -/
def wallEnv : Env Unit :=
  { inertEnv with hasSel := fun _ sel => sel = "text=Sign in to apply" }

/-- A two-state page world: state 0 shows a visible Continue button whose
click navigates to state 1 (the URL changes); nothing else ever matches. -/
def continueEnv : Env Nat where
  url := fun s =>
    if s = 0 then "https://example.com/step1" else "https://example.com/step2"
  hasSel := fun _ _ => false
  visible := fun s sel => s = 0 && sel = "button:has-text(\x27Continue\x27)"
  elVisible := fun _ _ => false
  elValue := fun _ _ => ""
  goto := fun s _ => s
  applyClick := fun s _ => (none, s)
  click := fun _ _ => 1
  fill := fun s _ _ => s
  setFiles := fun s _ _ => s
  fileExists := fun _ => false

/-- The two-state world with a visible Submit button instead of Continue. -/
def submitEnv : Env Nat :=
  { continueEnv with
    visible := fun s sel => s = 0 && sel = "button:has-text(\x27Submit\x27)" }

/-- A manager world with a resolvable job and resume whose configuration
module is the shipped one: reading `BROWSER_PROFILE_PATH` raises. -/
def mAttr : MEnv Unit Unit Unit where
  page := { inertEnv with fileExists := fun p => p = "/data/resume.pdf" }
  getJob := fun jid => if jid = 1 then some cJob else none
  getProfile := fun _ => none
  browserProfilePath := .error attrErrMsg
  authStateExists := false
  launchPersistentContext := fun _ => .ok ()
  chromiumLaunch := .ok ()
  newContextAuth := fun _ => .ok ()
  newContextFresh := fun _ => .ok ()
  newPage := fun _ => .ok ()

/-- A manager world in which the configuration read yields no profile path
(the knob the specification assumes), a fresh anonymous context is
acquired, and `context.new_page()` raises. -/
def mLeak : MEnv Unit Unit Unit :=
  { mAttr with
    browserProfilePath := .ok none
    newPage := fun _ =>
      .error "Target page, context or browser has been closed" }

/-- The same world with a working `context.new_page()`: the run reaches the
`try/finally` around the automator. -/
def mGood : MEnv Unit Unit Unit :=
  { mLeak with newPage := fun _ => .ok () }

/-- A manager world whose job store resolves no job id. -/
def mNoJob : MEnv Unit Unit Unit :=
  { mAttr with getJob := fun _ => none }

/-- A manager world whose job has no usable resume: the job path is empty
and the default profile names a file that does not exist on disk. -/
def mNoResume : MEnv Unit Unit Unit :=
  { mAttr with
    page := { inertEnv with fileExists := fun _ => false }
    getJob := fun jid =>
      if jid = 1 then some { cJob with resume_path := "" } else none
    getProfile := fun _ => some { resume_path := "/gone.pdf" } }

/-! ## Queue lemmas -/

lemma procCount_replicate (n : Nat) :
    procCount (List.replicate n TStatus.queued) = 0 := by
  induction n with
  | zero => rfl
  | succ n ih => simpa [List.replicate_succ, procCount] using ih

lemma runOutcome_ne_processing {V : Type} (o : Outcome V) :
    runOutcome o ≠ .processing := by
  cases o <;> simp [runOutcome]

lemma runOutcome_isTerminal {V : Type} (o : Outcome V) :
    (runOutcome o).isTerminal = true := by
  cases o <;> simp [runOutcome, TStatus.isTerminal]

lemma procCount_set_le (l : List TStatus) (i : Nat)
    (h : procCount l = 0) : procCount (l.set i .processing) ≤ 1 := by
  induction l generalizing i with
  | nil => simp [procCount]
  | cons a t ih =>
    cases i with
    | zero =>
      cases a <;> simp_all [procCount]
    | succ i =>
      cases a <;> simp_all [procCount, List.set]

lemma procCount_set_zero (l : List TStatus) (i : Nat) (v : TStatus)
    (h : procCount l = 0) (hv : v ≠ .processing) :
    procCount (l.set i v) = 0 := by
  induction l generalizing i with
  | nil => simp [procCount]
  | cons a t ih =>
    cases i with
    | zero =>
      cases a <;> cases v <;> simp_all [procCount, List.set]
    | succ i =>
      cases a <;> simp_all [procCount, List.set]

lemma workerTraceAux_procCount {V : Type} :
    ∀ (pending : List (Outcome V)) (i : Nat) (sts : List TStatus),
      procCount sts = 0 →
      ∀ snap ∈ workerTraceAux pending i sts, procCount snap ≤ 1 := by
  intro pending
  induction pending with
  | nil => intro i sts _ snap h; simp [workerTraceAux] at h
  | cons o rest ih =>
    intro i sts h0 snap hmem
    simp only [workerTraceAux, List.mem_cons] at hmem
    have hz : procCount ((sts.set i .processing).set i (runOutcome o)) = 0 := by
      rw [List.set_set]
      exact procCount_set_zero sts i _ h0 (runOutcome_ne_processing o)
    rcases hmem with h1 | h2 | h3
    · subst h1; exact procCount_set_le sts i h0
    · subst h2; omega
    · exact ih (i + 1) _ hz snap h3

/-- A snapshot is ordered when a task that has left `queued` implies every
earlier-submitted task is terminal. -/
def OrderedSnap (snap : List TStatus) : Prop :=
  ∀ i j : Nat, i < j → snap.getD j .queued ≠ .queued →
    (snap.getD i .queued).isTerminal = true

lemma getD_set_ne (l : List TStatus) (i j : Nat) (v : TStatus)
    (h : i ≠ j) : (l.set i v).getD j .queued = l.getD j .queued := by
  simp [List.getD, List.getElem?_set_ne h]

lemma getD_set_self (l : List TStatus) (i : Nat) (v : TStatus)
    (h : i < l.length) : (l.set i v).getD i .queued = v := by
  simp [List.getD, List.getElem?_set_self h]

/-- Shape of the status vector between worker iterations: every task before
the queue head is terminal, every task from the head on is still queued. -/
def SnapShape (i : Nat) (sts : List TStatus) : Prop :=
  (∀ k, k < i → (sts.getD k .queued).isTerminal = true) ∧
    (∀ k, i ≤ k → sts.getD k .queued = .queued)

lemma shape_ordered {i : Nat} {sts : List TStatus} (h : SnapShape i sts) :
    OrderedSnap sts := by
  intro a b hab hb
  rcases h with ⟨hterm, hq⟩
  by_cases hbi : i ≤ b
  · exact absurd (hq b hbi) hb
  · exact hterm a (by omega)

lemma shape_ordered_processing {i : Nat} {sts : List TStatus}
    (h : SnapShape i sts) : OrderedSnap (sts.set i .processing) := by
  intro a b hab hb
  rcases h with ⟨hterm, hq⟩
  by_cases hbi : b = i
  · have hai : a < i := hbi ▸ hab
    rw [getD_set_ne sts i a .processing (by omega)]
    exact hterm a hai
  · rw [getD_set_ne sts i b .processing (Ne.symm hbi)] at hb
    have hbl : b < i := by
      by_contra hge
      exact hb (hq b (by omega))
    rw [getD_set_ne sts i a .processing (by omega)]
    exact hterm a (by omega)

lemma shape_step {V : Type} {i : Nat} {sts : List TStatus}
    (h : SnapShape i sts) (hlen : i < sts.length) (o : Outcome V) :
    SnapShape (i + 1) (sts.set i (runOutcome o)) := by
  rcases h with ⟨hterm, hq⟩
  constructor
  · intro k hk
    by_cases hki : k = i
    · rw [hki, getD_set_self sts i _ hlen]
      exact runOutcome_isTerminal o
    · rw [getD_set_ne sts i k _ (Ne.symm hki)]
      exact hterm k (by omega)
  · intro k hk
    rw [getD_set_ne sts i k _ (by omega)]
    exact hq k (by omega)

lemma workerTraceAux_ordered {V : Type} :
    ∀ (pending : List (Outcome V)) (i : Nat) (sts : List TStatus),
      sts.length = i + pending.length → SnapShape i sts →
      ∀ snap ∈ workerTraceAux pending i sts, OrderedSnap snap := by
  intro pending
  induction pending with
  | nil => intro i sts _ _ snap h; simp [workerTraceAux] at h
  | cons o rest ih =>
    intro i sts hlen hsh snap hmem
    have hA : (o :: rest).length = rest.length + 1 := by simp
    have hil : i < sts.length := by omega
    have hsh2 : SnapShape (i + 1) ((sts.set i .processing).set i
        (runOutcome o)) := by
      rw [List.set_set]; exact shape_step hsh hil o
    simp only [workerTraceAux, List.mem_cons] at hmem
    rcases hmem with h1 | h2 | h3
    · subst h1; exact shape_ordered_processing hsh
    · subst h2
      rw [List.set_set]
      exact shape_ordered (shape_step hsh hil o)
    · refine ih (i + 1) _ ?_ hsh2 snap h3
      simp only [List.set_set, List.length_set]
      omega

lemma shape_initial (n : Nat) : SnapShape 0 (List.replicate n TStatus.queued) := by
  constructor
  · intro k hk; omega
  · intro k _
    by_cases hk : k < n
    · simp [List.getD, List.getElem?_replicate, hk]
    · simp [List.getD, List.getElem?_replicate, hk]

lemma take_succ_set (sts : List TStatus) (i : Nat) (r : TStatus)
    (h : i < sts.length) : (sts.set i r).take (i + 1) = sts.take i ++ [r] := by
  induction sts generalizing i with
  | nil => simp at h
  | cons a t ih =>
    cases i with
    | zero => simp [List.set]
    | succ i =>
      simp only [List.set, List.take, List.cons_append, List.cons.injEq,
        true_and]
      exact ih i (by simpa using h)

lemma trace_getLast {V : Type} :
    ∀ (pending : List (Outcome V)) (i : Nat) (sts : List TStatus),
      (sts :: workerTraceAux pending i sts).getLastD [] =
        endState pending i sts := by
  intro pending
  induction pending with
  | nil => intro i sts; rfl
  | cons o rest ih =>
    intro i sts
    have h1 := ih (i + 1) ((sts.set i .processing).set i (runOutcome o))
    simp only [workerTraceAux, endState]
    rw [List.getLastD_cons, List.getLastD_cons, List.getLastD_cons]
    rw [List.getLastD_cons] at h1
    exact h1

lemma endState_eq {V : Type} :
    ∀ (pending : List (Outcome V)) (i : Nat) (sts : List TStatus),
      sts.length = i + pending.length →
      endState pending i sts = sts.take i ++ pending.map runOutcome := by
  intro pending
  induction pending with
  | nil =>
    intro i sts hlen
    have hle : sts.length ≤ i := by simpa using hlen.le
    simp [endState, List.take_of_length_le hle]
  | cons o rest ih =>
    intro i sts hlen
    have hA : (o :: rest).length = rest.length + 1 := by simp
    have hil : i < sts.length := by omega
    simp only [endState, List.set_set]
    rw [ih (i + 1) _ (by simp only [List.length_set]; omega)]
    rw [take_succ_set sts i _ hil]
    simp [List.map]

lemma finalStatuses_eq {V : Type} (outcomes : List (Outcome V)) :
    finalStatuses outcomes = outcomes.map runOutcome := by
  unfold finalStatuses workerTrace
  rw [trace_getLast outcomes 0 _]
  rw [endState_eq outcomes 0 _ (by simp)]
  simp

/-! ## Theorems for the task coordinator claims -/

/-- C1.  Single-flight execution: in every snapshot of the status vector
taken during a worker run over any submitted task sequence, at most one
task has status `processing`; the worker stores a terminal status for the
current task before the next dequeued task is marked `processing`. -/
theorem queue_single_flight {V : Type} (outcomes : List (Outcome V)) :
    ∀ snap ∈ workerTrace outcomes, procCount snap ≤ 1 := by
  intro snap hmem
  unfold workerTrace at hmem
  rcases List.mem_cons.1 hmem with h0 | h1
  · subst h0
    simp [procCount_replicate]
  · exact workerTraceAux_procCount outcomes 0 _
      (procCount_replicate outcomes.length) snap h1

/-- Witness for C1 at a concrete run of three tasks, the second failing. -/
theorem queue_single_flight_witness :
    [TStatus.completed, TStatus.processing, TStatus.queued] ∈
      workerTrace ([.ok 1, .error "x", .ok 2] : List (Outcome Nat)) ∧
    procCount [TStatus.completed, TStatus.processing, TStatus.queued] ≤ 1 := by
  refine ⟨by decide, ?_⟩
  exact queue_single_flight ([.ok 1, .error "x", .ok 2] : List (Outcome Nat))
    _ (by decide)

/-- C2.  Strict FIFO: in every snapshot of any worker run, a task that has
left `queued` (is `processing` or terminal) implies every earlier-submitted
task already carries a terminal status; hence tasks start and reach their
terminal status in submission order. -/
theorem queue_fifo_order {V : Type} (outcomes : List (Outcome V)) :
    ∀ snap ∈ workerTrace outcomes, ∀ i j : Nat, i < j →
      snap.getD j .queued ≠ .queued →
      (snap.getD i .queued).isTerminal = true := by
  intro snap hmem
  unfold workerTrace at hmem
  rcases List.mem_cons.1 hmem with h0 | h1
  · subst h0
    intro i j _ hj
    exact absurd ((shape_initial outcomes.length).2 j (Nat.zero_le j)) hj
  · exact workerTraceAux_ordered outcomes 0 _ (by simp)
      (shape_initial outcomes.length) snap h1

/-- Witness for C2: in the snapshot where the second of three tasks is
processing, the first is terminal. -/
theorem queue_fifo_order_witness :
    [TStatus.completed, TStatus.processing, TStatus.queued] ∈
      workerTrace ([.ok 1, .error "x", .ok 2] : List (Outcome Nat)) ∧
    TStatus.isTerminal
      (List.getD [TStatus.completed, TStatus.processing, TStatus.queued]
        0 .queued) = true := by
  refine ⟨by decide, ?_⟩
  exact queue_fifo_order ([.ok 1, .error "x", .ok 2] : List (Outcome Nat))
    _ (by decide) 0 1 (by omega) (by decide)

/-- C3.  Worker fault isolation: a task whose function raises is stored as
`failed` with its error message and a recorded finish time and its
`task_finished` broadcast carries the failed snapshot with a `None` result
payload; a task whose function returns normally is stored as `completed`
with its result; and the worker drains every submitted task to a terminal
status regardless of earlier exceptions. -/
theorem worker_survives_task_failure (V : Type) :
    (∀ (o : Outcome V) (e : String), o = .error e →
      runTask o = (⟨.failed, true, true, none, some e⟩,
        [QEvent.taskStarted .processing,
         QEvent.taskFinished .failed (some e) none])) ∧
    (∀ (o : Outcome V) (v : V), o = .ok v →
      runTask o = (⟨.completed, true, true, some v, none⟩,
        [QEvent.taskStarted .processing,
         QEvent.taskFinished .completed none (some v)])) ∧
    (∀ outcomes : List (Outcome V),
      finalStatuses outcomes = outcomes.map runOutcome ∧
      ∀ st ∈ outcomes.map runOutcome, st.isTerminal = true) := by
  refine ⟨?_, ?_, ?_⟩
  · intro o e h; subst h; rfl
  · intro o v h; subst h; rfl
  · intro outcomes
    refine ⟨finalStatuses_eq outcomes, ?_⟩
    intro st hst
    rcases List.mem_map.1 hst with ⟨o, _, rfl⟩
    exact runOutcome_isTerminal o

/-- Witness for C3 at a failing task and a mixed three-task run. -/
theorem worker_survives_task_failure_witness :
    runTask (Except.error "boom" : Outcome Nat) =
      (⟨.failed, true, true, none, some "boom"⟩,
        [QEvent.taskStarted .processing,
         QEvent.taskFinished .failed (some "boom") none]) ∧
    finalStatuses ([.ok 1, .error "x", .ok 2] : List (Outcome Nat)) =
      [.completed, .failed, .completed] := by
  constructor
  · exact (worker_survives_task_failure Nat).1 _ "boom" rfl
  · have h := ((worker_survives_task_failure Nat).2.2
      [.ok 1, .error "x", .ok 2]).1
    simpa using h

/-! ## WebSocket broadcast lemmas -/

lemma wsDisconnect_eq (w : WSState) (c : Nat) :
    wsDisconnect w c = ⟨w.active.erase c⟩ := by
  unfold wsDisconnect
  by_cases h : c ∈ w.active
  · simp [h]
  · simp [h, List.erase_of_not_mem h]

lemma foldl_disconnect_active (ds : List Nat) :
    ∀ w : WSState, (ds.foldl wsDisconnect w).active =
      ds.foldl (fun l x => l.erase x) w.active := by
  induction ds with
  | nil => intro w; rfl
  | cons d ds ih =>
    intro w
    simp only [List.foldl_cons]
    rw [wsDisconnect_eq, ih ⟨w.active.erase d⟩]

lemma wsBroadcast_attempts_sub (d : Nat → Bool) (w : WSState) :
    ∀ p ∈ (wsBroadcast d w).2, p.1 ∈ w.active := by
  intro p hp
  unfold wsBroadcast at hp
  by_cases h : w.active.isEmpty
  · simp [h] at hp
  · rw [Bool.not_eq_true] at h
    simp only [h, Bool.false_eq_true, if_false, List.mem_map] at hp
    rcases hp with ⟨x, hx, rfl⟩
    exact hx

lemma mem_of_mem_foldl_erase (ds : List Nat) :
    ∀ (l : List Nat) (x : Nat),
      x ∈ ds.foldl (fun l x => l.erase x) l → x ∈ l := by
  induction ds with
  | nil => intro l x h; exact h
  | cons d ds ih =>
    intro l x h
    exact List.mem_of_mem_erase (ih (l.erase d) x h)

lemma not_mem_foldl_erase (ds : List Nat) :
    ∀ (l : List Nat) (x : Nat), l.Nodup → x ∈ ds →
      x ∉ ds.foldl (fun l x => l.erase x) l := by
  induction ds with
  | nil => intro l x _ h; simp at h
  | cons d ds ih =>
    intro l x hnd hx
    by_cases hxd : x = d
    · intro hmem
      have hxl : x ∈ l.erase d := mem_of_mem_foldl_erase ds (l.erase d) x hmem
      rw [hxd] at hxl
      exact absurd (((List.Nodup.mem_erase_iff hnd).1 hxl).1) (by simp)
    · have hx2 : x ∈ ds := by
        rcases List.mem_cons.1 hx with h | h
        · exact absurd h hxd
        · exact h
      exact ih (l.erase d) x (hnd.erase d) hx2

lemma mem_foldl_erase_of_not_mem (ds : List Nat) :
    ∀ (l : List Nat) (x : Nat), x ∈ l → x ∉ ds →
      x ∈ ds.foldl (fun l x => l.erase x) l := by
  induction ds with
  | nil => intro l x h _; exact h
  | cons d ds ih =>
    intro l x hl hnds
    have hxd : x ≠ d := fun h => hnds (by simp [h])
    have hnd2 : x ∉ ds := fun h => hnds (by simp [h])
    exact ih (l.erase d) x ((List.mem_erase_of_ne hxd).2 hl) hnd2

/-- C9.  A failing observer is pruned without disturbing the rest: when
delivery to connection `c` raises during a broadcast, `c` is removed from
the live set, every other current connection still gets its delivery
attempt (successfully when its own delivery works), `c` is attempted
exactly once (never retried), connections with working delivery stay
subscribed, and no subsequent broadcast attempts delivery to `c`. -/
theorem broadcast_removes_failing_observer
    (deliverOk : Nat → Bool) (st : WSState) (c : Nat)
    (hnd : st.active.Nodup) (hc : c ∈ st.active)
    (hf : deliverOk c = false) :
    c ∉ (wsBroadcast deliverOk st).1.active ∧
    (∀ o ∈ st.active, o ≠ c → deliverOk o = true →
      (o, true) ∈ (wsBroadcast deliverOk st).2) ∧
    ((wsBroadcast deliverOk st).2.filter (fun p => p.1 == c)).length = 1 ∧
    (∀ o ∈ st.active, deliverOk o = true →
      o ∈ (wsBroadcast deliverOk st).1.active) ∧
    (∀ deliverOk2 : Nat → Bool,
      ∀ p ∈ (wsBroadcast deliverOk2 (wsBroadcast deliverOk st).1).2,
        p.1 ≠ c) := by
  have hne : st.active.isEmpty = false := by
    cases h : st.active
    · rw [h] at hc; simp at hc
    · simp [h]
  have hbr : wsBroadcast deliverOk st =
      ((st.active.filter (fun c => !(deliverOk c))).foldl wsDisconnect st,
        st.active.map (fun c => (c, deliverOk c))) := by
    unfold wsBroadcast
    rw [hne]
    simp
  have hcd : c ∈ st.active.filter (fun c => !(deliverOk c)) :=
    List.mem_filter.2 ⟨hc, by simp [hf]⟩
  have hactive : (wsBroadcast deliverOk st).1.active =
      (st.active.filter (fun c => !(deliverOk c))).foldl
        (fun l x => l.erase x) st.active := by
    rw [hbr]
    exact foldl_disconnect_active _ st
  have hnotmem : c ∉ (wsBroadcast deliverOk st).1.active := by
    rw [hactive]
    exact not_mem_foldl_erase _ st.active c hnd hcd
  refine ⟨hnotmem, ?_, ?_, ?_, ?_⟩
  · intro o ho _ hok
    rw [hbr]
    have : (o, deliverOk o) ∈ st.active.map (fun c => (c, deliverOk c)) :=
      List.mem_map.2 ⟨o, ho, rfl⟩
    rw [hok] at this
    exact this
  · rw [hbr]
    have hfm : (st.active.map (fun c => (c, deliverOk c))).filter
        (fun p => p.1 == c) =
        (st.active.filter (fun x => x == c)).map (fun c => (c, deliverOk c)) := by
      rw [List.filter_map]
      rfl
    simp only [hfm, List.length_map]
    rw [← List.countP_eq_length_filter]
    have : st.active.countP (fun x => x == c) = st.active.count c := rfl
    rw [this]
    exact List.count_eq_one_of_mem hnd hc
  · intro o ho hok
    rw [hactive]
    refine mem_foldl_erase_of_not_mem _ st.active o ho ?_
    intro hmem
    have := (List.mem_filter.1 hmem).2
    rw [hok] at this
    simp at this
  · intro d2 p hp
    have hsub := wsBroadcast_attempts_sub d2 _ p hp
    intro hxc
    rw [hxc] at hsub
    exact hnotmem hsub

/-! ## Automation engine lemmas and theorems -/

lemma advOut_push_submitted {S : Type} (a : PAct) (r : AdvOut S)
    (sel : String) (k : Nat) (tr : List PAct)
    (h : AdvOut.push a r = .submitted sel k tr) :
    ∃ k' tr', r = .submitted sel k' tr' := by
  cases r with
  | submitted s' k' tr' =>
    simp only [AdvOut.push, AdvOut.submitted.injEq] at h
    exact ⟨k', tr', by simp [h.1]⟩
  | done adv s' k' tr' => simp [AdvOut.push] at h

/-- The advance-control scan returns through the in-step `return True` of
line 197 only for a clicked selector whose lowercase text contains
"submit" or "apply". -/
lemma advanceLoop_submitted_sel {S : Type} (env : Env S) :
    ∀ (sels : List String) (adv : Bool) (s : S) (sel : String) (k : Nat)
      (tr : List PAct),
      advanceLoop env adv s sels = .submitted sel k tr →
      (pyIn "submit" (pyLower sel) || pyIn "apply" (pyLower sel)) = true := by
  intro sels
  induction sels with
  | nil => intro adv s sel k tr h; simp [advanceLoop] at h
  | cons c rest ih =>
    intro adv s sel k tr h
    simp only [advanceLoop] at h
    by_cases hv : env.visible s c
    · rw [if_pos hv] at h
      by_cases hcond : env.url (env.click s c) ≠ env.url s ||
          env.hasSel (env.click s c) successMarkerSel
      · rw [if_pos hcond] at h
        by_cases hsa : pyIn "submit" (pyLower c) || pyIn "apply" (pyLower c)
        · rw [if_pos hsa] at h
          simp only [AdvOut.submitted.injEq] at h
          rw [← h.1]
          exact hsa
        · rw [if_neg hsa] at h
          rcases advOut_push_submitted _ _ _ _ _ h with ⟨k', tr', h'⟩
          exact ih true (env.click s c) sel k' tr' h'
      · rw [if_neg hcond] at h
        rcases advOut_push_submitted _ _ _ _ _ h with ⟨k', tr', h'⟩
        exact ih adv (env.click s c) sel k' tr' h'
    · rw [if_neg hv] at h
      exact ih adv s sel k tr h

/-- One-step unfolding of the form-step loop. -/
lemma stepLoop_unfold {S : Type} (env : Env S) (job : Job)
    (profile : Option UserProfile) (fuel : Nat) (s : S) :
    stepLoop env job profile (fuel + 1) s =
      if wallStep env s then .wall 1 0 []
      else
        let r1 := resumePhase env job profile s
        let r2 := fieldsPhase env profile r1.1
        let acts := r1.2.1 + r2.2.1
        let tr := r1.2.2 ++ r2.2.2
        match advanceLoop env false r2.1 nextSelectors with
        | .submitted _ a3 t3 => .submitted 1 (acts + a3) (tr ++ t3)
        | .done true s3 a3 t3 =>
          LoopRes.accum (acts + a3) (tr ++ t3)
            (stepLoop env job profile fuel s3)
        | .done false s3 a3 t3 => .ended s3 1 (acts + a3) (tr ++ t3) := rfl

/-- C4.  Login wall at the Navigate stage: whenever the freshly loaded page
carries one of the login-wall markers the engine checks (lines 46-48), the
run terminates at the wall-check return site with `actions_performed = 0`
and a trace containing only the navigation — no upload, no field fill, no
click — and the returned boolean is the failure value. -/
theorem login_wall_navigate_aborts {S : Type} (env : Env S) (s0 : S)
    (job : Job) (profile : Option UserProfile)
    (h : wallNavigate env (env.goto s0 job.url) = true) :
    applyRun env s0 job profile =
      { exit := .loginWallNavigate, actions := 0, iterations := 0
        trace := [PAct.pgoto job.url] } ∧
    ExitSite.toBool (applyRun env s0 job profile).exit = false := by
  have hrun : applyRun env s0 job profile =
      { exit := .loginWallNavigate, actions := 0, iterations := 0
        trace := [PAct.pgoto job.url] } := by
    unfold applyRun
    simp [h]
  exact ⟨hrun, by rw [hrun]; rfl⟩

/-- Witness for C4: the inert world with a "Sign in to apply" marker. -/
theorem login_wall_navigate_aborts_witness :
    wallNavigate wallEnv (wallEnv.goto () cJob.url) = true ∧
    applyRun wallEnv () cJob none =
      { exit := .loginWallNavigate, actions := 0, iterations := 0
        trace := [PAct.pgoto "https://example.com/job"] } := by
  refine ⟨by decide, ?_⟩
  exact (login_wall_navigate_aborts wallEnv () cJob none (by decide)).1

/-- C5 counterexample.  In the two-state world, the only advance control of
step 1 is a Continue button whose click changes the page URL; the claim
then demands the terminal Success state immediately, with no further
FormStep iterations, but the run executes a second iteration and returns
through the lenient potential-success return site (line 210), not the
in-step success return (line 197): the source only returns inside the step
when the clicked selector contains "submit"/"apply", and its content-based
"thank" test dereferences an unawaited coroutine, raising into the bare
`except` and moving on. -/
theorem url_change_not_immediate_success_cex :
    (continueEnv.url (continueEnv.click 0 "button:has-text(\x27Continue\x27)")
        ≠ continueEnv.url 0) ∧
    applyRun continueEnv 0 cJob none =
      { exit := .potentialSuccess, actions := 1, iterations := 2
        trace := [PAct.pgoto "https://example.com/job",
          PAct.clickNext "button:has-text(\x27Continue\x27)"] } ∧
    (applyRun continueEnv 0 cJob none).iterations ≠ 1 ∧
    (applyRun continueEnv 0 cJob none).exit ≠ .submittedSuccess := by
  refine ⟨by decide, by decide, by decide, by decide⟩

/-- C5 amended.  After an advance-control click, a changed URL or a matched
success-marker query makes the step count as advanced, but the engine
returns terminal Success within that same iteration exactly when the
clicked control-selector text contains "submit" or "apply"; when the scan
of the first form step returns that way, the whole run is classified as
submitted Success after exactly one FormStep iteration. -/
theorem submit_click_immediate_success {S : Type} (env : Env S) (s0 : S)
    (job : Job) (profile : Option UserProfile) (sel : String) (k : Nat)
    (tr : List PAct)
    (hw : wallNavigate env (env.goto s0 job.url) = false)
    (hl : pyIn "login" (env.url (stepStartState env s0 job)) = false)
    (hsg : pyIn "signin" (env.url (stepStartState env s0 job)) = false)
    (hws : wallStep env (stepStartState env s0 job) = false)
    (hadv : advanceLoop env false
        (stepMidState env job profile (stepStartState env s0 job))
        nextSelectors = AdvOut.submitted sel k tr) :
    (applyRun env s0 job profile).exit = .submittedSuccess ∧
    (applyRun env s0 job profile).iterations = 1 ∧
    (pyIn "submit" (pyLower sel) || pyIn "apply" (pyLower sel)) = true := by
  unfold stepStartState at hl hsg hws
  unfold stepMidState stepStartState at hadv
  have hrun : applyRun env s0 job profile =
      { exit := .submittedSuccess
        actions := (resumePhase env job profile
            (applyButtonLoop env (env.goto s0 job.url) applySelectors).2.1).2.1
          + (fieldsPhase env profile (resumePhase env job profile
            (applyButtonLoop env (env.goto s0 job.url)
              applySelectors).2.1).1).2.1 + k
        iterations := 1
        trace := [PAct.pgoto job.url]
          ++ (applyButtonLoop env (env.goto s0 job.url) applySelectors).2.2
          ++ ((resumePhase env job profile
              (applyButtonLoop env (env.goto s0 job.url)
                applySelectors).2.1).2.2
            ++ (fieldsPhase env profile (resumePhase env job profile
              (applyButtonLoop env (env.goto s0 job.url)
                applySelectors).2.1).1).2.2 ++ tr) } := by
    unfold applyRun
    rw [show (5 : Nat) = 4 + 1 from rfl]
    simp only [stepLoop_unfold, hw, Bool.false_eq_true, if_false, hl, hsg,
      Bool.or_self, hws, hadv]
  refine ⟨by rw [hrun], by rw [hrun], ?_⟩
  exact advanceLoop_submitted_sel env nextSelectors false _ sel k tr hadv

/-- Witness for C5 amended: the two-state world whose only advance control
is a Submit button; the run succeeds after exactly one iteration. -/
theorem submit_click_immediate_success_witness :
    advanceLoop submitEnv false
      (stepMidState submitEnv cJob none (stepStartState submitEnv 0 cJob))
      nextSelectors = AdvOut.submitted "button:has-text(\x27Submit\x27)" 1
        [PAct.clickNext "button:has-text(\x27Submit\x27)"] ∧
    (applyRun submitEnv 0 cJob none).exit = .submittedSuccess ∧
    (applyRun submitEnv 0 cJob none).iterations = 1 := by
  have h := submit_click_immediate_success submitEnv 0 cJob none
    "button:has-text(\x27Submit\x27)" 1
    [PAct.clickNext "button:has-text(\x27Submit\x27)"]
    (by decide) (by decide) (by decide) (by decide) (by decide)
  exact ⟨by decide, h.1, h.2.1⟩

/-- C6.  Terminal classification of a run whose form-step loop ends without
an in-step success return: the run is classified as the lenient potential
Success exactly when at least one action was performed, and as the
no-actions Failure exactly when the action count is zero; the reported
action count is the count accumulated by the loop. -/
theorem terminal_classification_lenient {S : Type} (env : Env S) (s0 : S)
    (job : Job) (profile : Option UserProfile) (s' : S) (i a : Nat)
    (t : List PAct)
    (hw : wallNavigate env (env.goto s0 job.url) = false)
    (hl : pyIn "login" (env.url (stepStartState env s0 job)) = false)
    (hsg : pyIn "signin" (env.url (stepStartState env s0 job)) = false)
    (hend : stepLoop env job profile 5 (stepStartState env s0 job) =
      .ended s' i a t) :
    ((applyRun env s0 job profile).exit = .potentialSuccess ↔ 0 < a) ∧
    ((applyRun env s0 job profile).exit = .noActions ↔ a = 0) ∧
    (applyRun env s0 job profile).actions = a := by
  unfold stepStartState at hl hsg hend
  have hrunsplit : applyRun env s0 job profile =
      if a > 0 then
        { exit := .potentialSuccess, actions := a, iterations := i
          trace := ([PAct.pgoto job.url]
            ++ (applyButtonLoop env (env.goto s0 job.url)
              applySelectors).2.2) ++ t }
      else
        { exit := .noActions, actions := a, iterations := i
          trace := ([PAct.pgoto job.url]
            ++ (applyButtonLoop env (env.goto s0 job.url)
              applySelectors).2.2) ++ t } := by
    unfold applyRun
    simp only [hw, Bool.false_eq_true, if_false, hl, hsg, Bool.or_self,
      hend]
  by_cases ha : a > 0
  · rw [hrunsplit, if_pos ha]
    refine ⟨by simp [ha], by simp; omega, rfl⟩
  · rw [hrunsplit, if_neg ha]
    refine ⟨by simp; omega, by simp; omega, rfl⟩

/-- Witness for C6: the inert world — no apply button, no inputs, no
advance controls — ends its loop after one iteration with zero actions and
is classified as the no-actions failure. -/
theorem terminal_classification_lenient_witness :
    stepLoop inertEnv cJob none 5 (stepStartState inertEnv () cJob) =
      .ended () 1 0 [] ∧
    (applyRun inertEnv () cJob none).exit = .noActions ∧
    applyRun inertEnv () cJob none =
      { exit := .noActions, actions := 0, iterations := 1
        trace := [PAct.pgoto "https://example.com/job"] } := by
  have h := terminal_classification_lenient inertEnv () cJob none () 1 0 []
    (by decide) (by decide) (by decide) (by decide)
  exact ⟨by decide, h.2.1.2 rfl, by decide⟩

/-! ## Automation manager lemmas and theorems -/

/-- C7 evaluation.  In the shipped repository `config.py` does not define
`BROWSER_PROFILE_PATH`, so the attribute read at line 243 raises; the
message of that `AttributeError` matches neither lock pattern of line 266,
hence for every run that passes the job and resume checks the exception is
re-raised out of `run_application` with an empty effect trace: no launch is
ever attempted, so the distinct profile-lock result is unreachable. -/
theorem profile_lock_unreachable_attr_error {S B C : Type} (m : MEnv S B C)
    (jobId : Nat) (job : Job)
    (hj : m.getJob jobId = some job)
    (hres : hasResumeAvailable m job = true)
    (hcfg : m.browserProfilePath = .error attrErrMsg) :
    runApplication m jobId = (.error attrErrMsg, []) ∧
    isLockError attrErrMsg = false := by
  have hlock : isLockError attrErrMsg = false := by decide
  have hacq : acquireContext m = (.error attrErrMsg, []) := by
    unfold acquireContext
    rw [hcfg]
  constructor
  · unfold runApplication
    simp only [hj, hres, Bool.not_true, Bool.false_eq_true, if_false, hacq,
      hlock]
  · exact hlock

/-- Witness for C7: the shipped-configuration world with a valid job and an
existing resume. -/
theorem profile_lock_unreachable_attr_error_witness :
    mAttr.getJob 1 = some cJob ∧
    hasResumeAvailable mAttr cJob = true ∧
    mAttr.browserProfilePath = .error attrErrMsg ∧
    runApplication mAttr 1 = (.error attrErrMsg, []) := by
  refine ⟨by decide, by decide, rfl, ?_⟩
  exact (profile_lock_unreachable_attr_error mAttr 1 cJob (by decide)
    (by decide) rfl).1

/-- Intended-configuration behavior supporting the C7 analysis: were the
configuration attribute defined (modelled by an `.ok` read) and the
persistent launch to fail with a message matching a lock pattern, the run
would return the distinct profile-lock result after exactly one launch
attempt and no page action, as lines 265-270 intend. -/
theorem lock_error_classified_when_config_defined {S B C : Type}
    (m : MEnv S B C) (jobId : Nat) (job : Job) (dir msg : String)
    (hj : m.getJob jobId = some job)
    (hres : hasResumeAvailable m job = true)
    (hcfg : m.browserProfilePath = .ok (some dir)) (hd : dir ≠ "")
    (hl : m.launchPersistentContext dir = .error msg)
    (hlock : isLockError msg = true) :
    runApplication m jobId =
      (.ok ⟨"error", lockMessage⟩, [MAct.launchPersistent dir]) := by
  have hacq : acquireContext m =
      (.error msg, [MAct.launchPersistent dir]) := by
    unfold acquireContext
    rw [hcfg]
    simp only [if_neg hd, hl]
  unfold runApplication
  simp only [hj, hres, Bool.not_true, Bool.false_eq_true, if_false, hacq,
    hlock, if_pos]

/-- C8.  Scoped release of the acquired context: whenever a run acquires a
browser context, a context-closing event is in the effect trace before
`run_application` exits, on every exit path.  On the paths that reach the
`try` (normal return and automation-failure result), the `finally` of
line 290 contributes the explicit `context.close()`; on every path that
entered the `async with async_playwright()` block — including the one
where `context.new_page()` at line 273, outside the `try/finally`, raises —
the teardown of that block stops the driver and closes the launched
contexts during unwinding, so even that path releases the context (and a
held profile lock) before the exception leaves `run_application`. -/
theorem acquired_context_released {S B C : Type} (m : MEnv S B C)
    (jobId : Nat) (job : Job) (ctx : C) (tr : List MAct)
    (hj : m.getJob jobId = some job)
    (hres : hasResumeAvailable m job = true)
    (hacq : acquireContext m = (.ok ctx, tr)) :
    (∃ a ∈ (runApplicationFull m jobId).2, closesContext a = true) ∧
    (∀ pg, m.newPage ctx = .ok pg →
      MAct.closeContext ∈ (runApplication m jobId).2) ∧
    (∀ e, m.newPage ctx = .error e →
      (runApplicationFull m jobId).2 =
        tr ++ [MAct.pageNew, MAct.playwrightStop]) := by
  have hent : enteredPlaywright m jobId = true := by
    simp [enteredPlaywright, hj, hres]
  refine ⟨?_, ?_, ?_⟩
  · refine ⟨MAct.playwrightStop, ?_, rfl⟩
    unfold runApplicationFull
    simp [hent]
  · intro pg hpg
    unfold runApplication
    simp only [hj, hres, Bool.not_true, Bool.false_eq_true, if_false, hacq,
      hpg]
    by_cases hb : (applyRun m.page pg job (m.getProfile 1)).exit.toBool <;>
      simp [hb]
  · intro e he
    have hrun : runApplication m jobId =
        (.error e, tr ++ [MAct.pageNew]) := by
      unfold runApplication
      simp only [hj, hres, Bool.not_true, Bool.false_eq_true, if_false,
        hacq, he]
    unfold runApplicationFull
    simp [hent, hrun]

/-- Witness for C8: two concrete acquisitions — one whose `new_page`
succeeds (the run reaches the `finally` and the explicit close is in the
trace) and one whose `new_page` raises (the teardown of the playwright
block is the closing event, last in the trace). -/
theorem acquired_context_released_witness :
    acquireContext mGood = (.ok (), [MAct.launchBrowser, MAct.contextFresh]) ∧
    MAct.closeContext ∈ (runApplication mGood 1).2 ∧
    (∃ a ∈ (runApplicationFull mLeak 1).2, closesContext a = true) ∧
    (runApplicationFull mLeak 1).2 =
      [MAct.launchBrowser, MAct.contextFresh, MAct.pageNew,
        MAct.playwrightStop] := by
  refine ⟨rfl, ?_, ?_, ?_⟩
  · exact (acquired_context_released mGood 1 cJob ()
      [MAct.launchBrowser, MAct.contextFresh] (by decide) (by decide)
      rfl).2.1 () rfl
  · exact (acquired_context_released mLeak 1 cJob ()
      [MAct.launchBrowser, MAct.contextFresh] (by decide) (by decide)
      rfl).1
  · exact (acquired_context_released mLeak 1 cJob ()
      [MAct.launchBrowser, MAct.contextFresh] (by decide) (by decide)
      rfl).2.2 "Target page, context or browser has been closed" rfl

/-- C10.  Resume precondition at the public entry point: when the job id
resolves to no job, or the job resolves but neither its `resume_path` nor
the default profile resume names an existing file, `run_application`
returns the corresponding error dict with an empty effect trace — no
browser launch, no page creation or action, and no job-record update. -/
theorem resume_precondition_blocks_run {S B C : Type} (m : MEnv S B C)
    (jobId : Nat) :
    (m.getJob jobId = none →
      runApplication m jobId = (.ok ⟨"error", "Job not found"⟩, [])) ∧
    (∀ job, m.getJob jobId = some job → hasResumeAvailable m job = false →
      runApplication m jobId = (.ok ⟨"error",
        "No resume found (neither job-specific nor profile default)."⟩,
        [])) := by
  constructor
  · intro h
    unfold runApplication
    simp only [h]
  · intro job hj hres
    unfold runApplication
    simp only [hj, hres, Bool.not_false, if_pos]

/-- Witness for C10 at an unknown job id and at a job with no usable
resume. -/
theorem resume_precondition_blocks_run_witness :
    mNoJob.getJob 1 = none ∧
    runApplication mNoJob 1 = (.ok ⟨"error", "Job not found"⟩, []) ∧
    mNoResume.getJob 1 = some { cJob with resume_path := "" } ∧
    hasResumeAvailable mNoResume { cJob with resume_path := "" } = false ∧
    runApplication mNoResume 1 = (.ok ⟨"error",
      "No resume found (neither job-specific nor profile default)."⟩,
      []) := by
  refine ⟨by decide, ?_, by decide, by decide, ?_⟩
  · exact (resume_precondition_blocks_run mNoJob 1).1 (by decide)
  · exact (resume_precondition_blocks_run mNoResume 1).2
      { cJob with resume_path := "" } (by decide) (by decide)

/-- Witness for C9: two observers, delivery to observer 1 raises. -/
theorem broadcast_removes_failing_observer_witness :
    [1, 2].Nodup ∧ 1 ∈ [1, 2] ∧ (fun c => decide (c = 2)) 1 = false ∧
    1 ∉ (wsBroadcast (fun c => decide (c = 2)) ⟨[1, 2]⟩).1.active := by
  refine ⟨by decide, by decide, by decide, ?_⟩
  exact (broadcast_removes_failing_observer (fun c => decide (c = 2))
    ⟨[1, 2]⟩ 1 (by decide) (by decide) (by decide)).1

end JobSearch
